import Mathlib

/-!
Verification development for the statshub repository: a stats collection
server (package `statshub`, file statshub.go) and a periodic archiver
(package `archive`).  The Go source is embedded shallowly: pure helpers
become Lean functions, request handling becomes a function from a request
model to an outcome, the archive loop becomes explicit recursion over a
list of per-cycle outcomes.  Machine words are `Nat` with explicit
reduction modulo 2^32 where the Go code uses uint32 (SHA-256).
-/

namespace Statshub

/-! ## SHA-256 (crypto/sha256 + encoding/hex as used by authenticateAgainst)

Words are `Nat` kept below 2^32 by explicit `% w32`.
-/

def w32 : Nat := 2 ^ 32

def rotr32 (n x : Nat) : Nat :=
  (x >>> n) ||| ((x <<< (32 - n)) % w32)

def bsig0 (x : Nat) : Nat := rotr32 2 x ^^^ rotr32 13 x ^^^ rotr32 22 x

def bsig1 (x : Nat) : Nat := rotr32 6 x ^^^ rotr32 11 x ^^^ rotr32 25 x

def ssig0 (x : Nat) : Nat := rotr32 7 x ^^^ rotr32 18 x ^^^ (x >>> 3)

def ssig1 (x : Nat) : Nat := rotr32 17 x ^^^ rotr32 19 x ^^^ (x >>> 10)

def chF (x y z : Nat) : Nat := (x &&& y) ^^^ ((x ^^^ 0xffffffff) &&& z)

def majF (x y z : Nat) : Nat := (x &&& y) ^^^ (x &&& z) ^^^ (y &&& z)

/-- The first 64 primes; their cube and square roots seed the SHA-256
constants (FIPS 180-4 sections 4.2.2 and 5.3.3). -/
def sha2Primes : List Nat :=
  [2, 3, 5, 7, 11, 13, 17, 19, 23, 29, 31, 37,
   41, 43, 47, 53, 59, 61, 67, 71, 73, 79, 83, 89,
   97, 101, 103, 107, 109, 113, 127, 131, 137, 139, 149, 151,
   157, 163, 167, 173, 179, 181, 191, 193, 197, 199, 211, 223,
   227, 229, 233, 239, 241, 251, 257, 263, 269, 271, 277, 281,
   283, 293, 307, 311]

/-- Bisection for the integer cube root on [lo, hi), assuming lo^3 ≤ n < hi^3. -/
def cbrtAux : Nat → Nat → Nat → Nat → Nat
  | 0, _, lo, _ => lo
  | fuel + 1, n, lo, hi =>
    if hi ≤ lo + 1 then lo
    else
      let mid := (lo + hi) / 2
      if mid ^ 3 ≤ n then cbrtAux fuel n mid hi else cbrtAux fuel n lo mid

/-- Largest x with x^3 ≤ n. -/
def natCbrt (n : Nat) : Nat := cbrtAux 256 n 0 (n + 2)

/-- The 64 SHA-256 round constants: the first 32 bits of the fractional
parts of the cube roots of the first 64 primes. -/
def shaK : List Nat := sha2Primes.map (fun p => natCbrt (p <<< 96) % w32)

/-- The 8 initial hash words: the first 32 bits of the fractional parts of
the square roots of the first 8 primes. -/
def shaH0 : List Nat := (sha2Primes.take 8).map (fun p => Nat.sqrt (p <<< 64) % w32)

/-- Message padding: append 0x80, zero bytes to reach 56 mod 64, then the
bit length as 8 big-endian bytes. -/
def shaPad (msg : List Nat) : List Nat :=
  let bitLen := msg.length * 8
  let k := (119 - msg.length % 64) % 64
  msg ++ [0x80] ++ List.replicate k 0 ++
    (List.range 8).map (fun i => (bitLen >>> (8 * (7 - i))) % 256)

/-- Split a byte list into 64-byte chunks (fuel-driven for structural
recursion; called with fuel = list length, which is ample). -/
def toChunks : Nat → List Nat → List (List Nat)
  | 0, _ => []
  | _, [] => []
  | fuel + 1, l => l.take 64 :: toChunks fuel (l.drop 64)

/-- Combine 4 bytes big-endian into one 32-bit word, across the list. -/
def bytesToWords : List Nat → List Nat
  | x0 :: x1 :: x2 :: x3 :: rest =>
      (((x0 <<< 8 ||| x1) <<< 8 ||| x2) <<< 8 ||| x3) :: bytesToWords rest
  | _ => []

/-- Extend the 16-word schedule to 64 words. -/
def extendW : Nat → List Nat → List Nat
  | 0, ws => ws
  | n + 1, ws =>
    let i := ws.length
    let nw := (ssig1 (ws.getD (i - 2) 0) + ws.getD (i - 7) 0 +
               ssig0 (ws.getD (i - 15) 0) + ws.getD (i - 16) 0) % w32
    extendW n (ws ++ [nw])

/-- One compression round on the 8-word working state. -/
def roundStep (st : List Nat) (k w : Nat) : List Nat :=
  match st with
  | [a, b, c, d, e, f, g, h] =>
    let t1 := (h + bsig1 e + chF e f g + k + w) % w32
    let t2 := (bsig0 a + majF a b c) % w32
    [(t1 + t2) % w32, a, b, c, (d + t1) % w32, e, f, g]
  | other => other

def processChunk (h : List Nat) (chunk : List Nat) : List Nat :=
  let ws := extendW 48 (bytesToWords chunk)
  let st := (List.zip shaK ws).foldl (fun s kw => roundStep s kw.1 kw.2) h
  List.zipWith (fun a b => (a + b) % w32) h st

def wordToBytes (w : Nat) : List Nat :=
  [(w >>> 24) % 256, (w >>> 16) % 256, (w >>> 8) % 256, w % 256]

/-- SHA-256 digest of a byte list, as 32 bytes. -/
def sha256Bytes (msg : List Nat) : List Nat :=
  let padded := shaPad msg
  ((toChunks padded.length padded).foldl processChunk shaH0).flatMap wordToBytes

def hexDigit (n : Nat) : Char := "0123456789abcdef".toList.getD n '0'

/-- Lowercase hex encoding, as produced by Go hex.EncodeToString. -/
def hexEncode (bytes : List Nat) : String :=
  ⟨bytes.flatMap (fun b => [hexDigit (b / 16), hexDigit (b % 16)])⟩

/-! ## Strings as bytes; decimal rendering (fmt.Sprintf with %s%d) -/

/-- UTF-8 encoding of a code point, matching Go string-to-byte conversion. -/
def utf8Bytes (c : Nat) : List Nat :=
  if c < 0x80 then [c]
  else if c < 0x800 then
    [0xc0 ||| (c >>> 6), 0x80 ||| (c &&& 0x3f)]
  else if c < 0x10000 then
    [0xe0 ||| (c >>> 12), 0x80 ||| ((c >>> 6) &&& 0x3f), 0x80 ||| (c &&& 0x3f)]
  else
    [0xf0 ||| (c >>> 18), 0x80 ||| ((c >>> 12) &&& 0x3f),
     0x80 ||| ((c >>> 6) &&& 0x3f), 0x80 ||| (c &&& 0x3f)]

def strBytes (s : String) : List Nat :=
  s.data.flatMap (fun c => utf8Bytes c.toNat)

def digitChar (n : Nat) : Char := Char.ofNat (48 + n)

/-- Decimal digits of a natural number (fuel-driven division recursion). -/
def natDecimalAux : Nat → Nat → List Char
  | 0, _ => []
  | fuel + 1, n =>
    if n < 10 then [digitChar n]
    else natDecimalAux fuel (n / 10) ++ [digitChar (n % 10)]

def natDecimal (n : Nat) : String := ⟨natDecimalAux (n + 1) n⟩

/-- Decimal rendering of an integer, as Go fmt %d renders an int64. -/
def intDecimal : Int → String
  | .ofNat n => natDecimal n
  | .negSucc m => "-" ++ natDecimal (m + 1)

/-! ## Request parsing (getUserInfo, statshub.go lines 121-147) -/

def lastIndexOfAux (c : Char) : List Char → Nat → Int → Int
  | [], _, acc => acc
  | x :: rest, i, acc =>
    lastIndexOfAux c rest (i + 1) (if x = c then Int.ofNat i else acc)

/-- strings.LastIndex for a single character: last index, or -1 if absent. -/
def lastIndexOf (c : Char) (s : String) : Int := lastIndexOfAux c s.data 0 (-1)

def isDigitCh (c : Char) : Bool := 48 ≤ c.toNat && c.toNat ≤ 57

def digitsVal : List Char → Option Nat
  | [] => none
  | l =>
    if l.all isDigitCh then
      some (l.foldl (fun acc c => acc * 10 + (c.toNat - 48)) 0)
    else none

/-- strconv.Atoi on a 64-bit platform: optional sign, decimal digits,
error (none) on empty input, stray characters or int64 overflow. -/
def atoi (s : String) : Option Int :=
  match s.data with
  | [] => none
  | '+' :: rest =>
    (digitsVal rest).bind (fun n => if n ≤ 2 ^ 63 - 1 then some (Int.ofNat n) else none)
  | '-' :: rest =>
    (digitsVal rest).bind (fun n => if n ≤ 2 ^ 63 then some (-(n : Int)) else none)
  | l =>
    (digitsVal l).bind (fun n => if n ≤ 2 ^ 63 - 1 then some (Int.ofNat n) else none)

inductive GetUserInfoError
  | missingUserId
  | badUserId
  | noHash
  | wrongNumberOfHashes
deriving DecidableEq, Repr

structure UserInfo where
  UserId : Int
  Hash : String
deriving DecidableEq, Repr

/-- getUserInfo (statshub.go lines 121-147): parse the user id from the path
segment after the last slash and take the single `hash` query parameter
(`hashes` is the list of occurrences of the `hash` key, empty when absent). -/
def getUserInfo (path : String) (hashes : List String) :
    Except GetUserInfoError UserInfo :=
  let lastSlash := lastIndexOf '/' path
  if lastSlash = 0 then .error .missingUserId
  else
    let userIdString : String := ⟨path.data.drop (lastSlash + 1).toNat⟩
    match atoi userIdString with
    | none => .error .badUserId
    | some userId =>
      match hashes with
      | [] => .error .noHash
      | [h] => .ok ⟨userId, h⟩
      | _ => .error .wrongNumberOfHashes

/-! ## Authentication (authenticateAgainst, statshub.go lines 151-171) -/

/-- The expected hash of statshub.go lines 159-163:
hex(sha256(Sprintf("%s%d", email, userId))). -/
def expectedHash (email : String) (userId : Int) : String :=
  hexEncode (sha256Bytes (strBytes (email ++ intDecimal userId)))

/-- authenticateAgainst: `oauthEmail` is the result of user.CurrentOAuth
(none when that call errors).  The error value is the returned status code. -/
def authenticateAgainst (oauthEmail : Option String) (userInfo : UserInfo) :
    Except Nat Unit :=
  match oauthEmail with
  | none => .error 401
  | some email =>
    if expectedHash email userInfo.UserId ≠ userInfo.Hash then .error 403
    else .ok ()

/-! ## The stats handler (statsHandler, statshub.go lines 54-89)

The HTTP request is modelled by its method, URL path, the occurrences of the
`hash` query key, the OAuth result and the JSON-decoded body (`none` when
decoding fails).  The redis client functions are not under src/ and are
parameters; the live store is threaded explicitly so that mutation is
observable. -/

structure Request (Body : Type) where
  method : String
  path : String
  hashes : List String
  oauthEmail : Option String
  body : Option Body

structure HandlerOutcome (Store : Type) where
  status : Nat
  wroteJsonBody : Bool
  store : Store

/-- postStats (statshub.go lines 92-105): decode failure gives 400, a failed
redis post gives 500 and leaves the store unchanged, success gives 200 with
the updated store. -/
def postStats {Body Store : Type}
    (postToRedis : Body → Int → Store → Except String Store)
    (body : Option Body) (userInfo : UserInfo) (store : Store) : Nat × Store :=
  match body with
  | none => (400, store)
  | some stats =>
    match postToRedis stats userInfo.UserId store with
    | .error _ => (500, store)
    | .ok store2 => (200, store2)

/-- getStats (statshub.go lines 108-119): 500 when the redis connection or
the query fails, 200 otherwise. -/
def getStats {Conn Resp : Type}
    (connectToRedis : Except String Conn)
    (query : Conn → Int → Except String Resp) (userInfo : UserInfo) : Nat :=
  match connectToRedis with
  | .error _ => 500
  | .ok conn =>
    match query conn userInfo.UserId with
    | .error _ => 500
    | .ok _ => 200

/-- statsHandler (statshub.go lines 54-89).  getUserInfo failures give 400;
then authentication runs; only then the method is dispatched.  Every branch
but the 405 one writes a JSON body (via fail/write). -/
def statsHandler {Body Conn Resp Store : Type}
    (postToRedis : Body → Int → Store → Except String Store)
    (connectToRedis : Except String Conn)
    (query : Conn → Int → Except String Resp)
    (r : Request Body) (store : Store) : HandlerOutcome Store :=
  match getUserInfo r.path r.hashes with
  | .error _ => ⟨400, true, store⟩
  | .ok userInfo =>
    match authenticateAgainst r.oauthEmail userInfo with
    | .error code => ⟨code, true, store⟩
    | .ok _ =>
      if r.method = "POST" then
        let res := postStats postToRedis r.body userInfo store
        ⟨res.1, true, res.2⟩
      else if r.method = "GET" then
        ⟨getStats connectToRedis query userInfo, true, store⟩
      else ⟨405, false, store⟩

/-! ## Counter merge semantics -/

/-- Modelled from the spec: the redis write path (`postToRedis`, not under
src/) merges a counter submission into the aggregation store by adding the
submitted value to the stored value for that stat name, with missing names
defaulting to 0.  A submission is a (stat name, value) pair; the store for
one entity maps stat names to values. -/
def applyCounterSub (store : String → Int) (sub : String × Int) : String → Int :=
  fun name => if name = sub.1 then store name + sub.2 else store name

def applyCounterSubs (store : String → Int) (subs : List (String × Int)) :
    String → Int :=
  subs.foldl applyCounterSub store

def emptyCounters : String → Int := fun _ => 0

end Statshub

namespace Archive

open Statshub

/-! ## The periodic archiver (package archive, src/unnamed/part_000) -/

/-- time.Duration values, in nanoseconds. -/
def minuteNs : Nat := 60 * 1000000000

def hourNs : Nat := 60 * minuteNs

/-- Go time.Time.Truncate: rounds down to a multiple of the interval since
the epoch (a no-op for a non-positive interval). -/
def truncTime (t i : Nat) : Nat := if i = 0 then t else t - t % i

/-- The nextInterval computation of archivePeriodically (part_000 line 54):
Truncate(interval).Add(interval). -/
def nextBoundary (t i : Nat) : Nat := truncTime t i + i

/-- Start (part_000 lines 40-49): the per-dimension archival tasks scheduled,
as (dimension, interval) pairs; no task when the GOOGLE_PROJECT environment
value is empty. -/
def Start (projectId : String) : List (String × Nat) :=
  if projectId = "" then []
  else
    [("fallback", 10 * minuteNs), ("country", 1 * hourNs), ("user", 24 * hourNs)]

/-- archiveToBigQuery (part_000 lines 64-77).  `queryDims` is the result of
statshub.QueryDims for the one dimension, the Go map modelled as an
association list; NewStatsTable and WriteStats belong to the warehouse client
(not under src/) and are parameters.  The Go range loop returns
unconditionally inside its first iteration, so only the head element is ever
processed.  The result pairs the returned error value with the list of
(dimension name, timestamp) WriteStats calls performed. -/
def archiveToBigQuery {S T : Type}
    (queryDims : Except String (List (String × S)))
    (newStatsTable : String → Except String T)
    (writeStats : T → S → Nat → Except String Unit)
    (now interval : Nat) : Except String Unit × List (String × Nat) :=
  match queryDims with
  | .error e => (.error e, [])
  | .ok statsByDim =>
    match statsByDim with
    | [] => (.ok (), [])
    | (dimName, dimStats) :: _ =>
      match newStatsTable dimName with
      | .error e => (.error e, [])
      | .ok tbl =>
        (writeStats tbl dimStats (truncTime now interval),
         [(dimName, truncTime now interval)])

/-- The loop of archivePeriodically (part_000 lines 52-61), one iteration per
entry of `outcomes` (the archiveToBigQuery error result of that cycle).  Time
advances to the boundary the iteration sleeps until.  Each cycle yields the
boundary it fired at and whether an error was logged; an error never leaves
the loop, so the recursion consumes every outcome. -/
def archiveLoopRun (i : Nat) : List (Option String) → Nat → List (Nat × Bool)
  | [], _ => []
  | o :: rest, now =>
    (nextBoundary now i, o.isSome) :: archiveLoopRun i rest (nextBoundary now i)

end Archive

namespace Statshub

theorem strBytes_append (a b : String) :
    strBytes (a ++ b) = strBytes a ++ strBytes b :=
  List.flatMap_append ..

theorem authenticateAgainst_ok_iff (o : Option String) (u : UserInfo) :
    authenticateAgainst o u = .ok () ↔
      ∃ R, o = some R ∧ expectedHash R u.UserId = u.Hash := by
  cases o with
  | none => simp [authenticateAgainst]
  | some R =>
    by_cases h : expectedHash R u.UserId = u.Hash <;>
      simp [authenticateAgainst, h]

theorem authenticateAgainst_error_cases (o : Option String) (u : UserInfo) (c : Nat)
    (h : authenticateAgainst o u = .error c) :
    (c = 401 ∧ o = none) ∨
      (c = 403 ∧ ∃ R, o = some R ∧ expectedHash R u.UserId ≠ u.Hash) := by
  cases o with
  | none =>
    simp [authenticateAgainst] at h
    exact .inl ⟨h.symm, rfl⟩
  | some R =>
    by_cases hh : expectedHash R u.UserId = u.Hash
    · simp [authenticateAgainst, hh] at h
    · simp [authenticateAgainst, hh] at h
      exact .inr ⟨h.symm, R, rfl, hh⟩

/-- Claim C1: authentication is a pure iff-predicate.  For an authenticated
caller with real identity R and a request claiming anonymized id U with
proof H, verification succeeds exactly when H equals the hex-encoded
SHA-256 digest of the bytes of R followed by the bytes of the decimal
rendering of U; any other H fails with status 403. -/
theorem auth_succeeds_iff_hash_matches (R : String) (U : Int) (H : String) :
    (authenticateAgainst (some R) ⟨U, H⟩ = .ok () ↔
       H = hexEncode (sha256Bytes (strBytes R ++ strBytes (intDecimal U)))) ∧
    (authenticateAgainst (some R) ⟨U, H⟩ = .error 403 ↔
       H ≠ hexEncode (sha256Bytes (strBytes R ++ strBytes (intDecimal U)))) := by
  have hc : expectedHash R U =
      hexEncode (sha256Bytes (strBytes R ++ strBytes (intDecimal U))) := by
    rw [expectedHash, strBytes_append]
  rw [← hc]
  unfold authenticateAgainst
  by_cases h : expectedHash R U = H
  · simp [h]
  · simp [h, eq_comm]
    exact fun hh => h hh.symm

end Statshub

namespace Statshub

/-- Claim C9: when authentication fails (unauthenticated caller, code 401, or
hash mismatch, code 403) the handler returns that failure response and the
aggregation store is left untouched: the store write is never invoked. -/
theorem auth_failure_leaves_store_unchanged {Body Conn Resp Store : Type}
    (postToRedis : Body → Int → Store → Except String Store)
    (connectToRedis : Except String Conn)
    (query : Conn → Int → Except String Resp)
    (r : Request Body) (store : Store) (u : UserInfo) (c : Nat)
    (hgu : getUserInfo r.path r.hashes = .ok u)
    (hauth : authenticateAgainst r.oauthEmail u = .error c) :
    statsHandler postToRedis connectToRedis query r store = ⟨c, true, store⟩ := by
  simp [statsHandler, hgu, hauth]

theorem auth_failure_leaves_store_unchanged_witness :
    statsHandler (fun (_ : Unit) _ (s : Nat) => .ok (s + 1)) (.ok (0 : Nat))
        (fun _ _ => .ok (0 : Nat)) ⟨"POST", "/stats/5", ["h"], none, some ()⟩ 7 =
      ⟨401, true, 7⟩ :=
  auth_failure_leaves_store_unchanged _ _ _ _ _ ⟨5, "h"⟩ 401 rfl rfl

/-- Claim C10: the handler parses the user id and hash and authenticates
before checking the method, so a request with an unsupported method still
receives 400 when malformed and 401/403 when authentication fails; 405 is
returned exactly for well-formed, authenticated requests with an unsupported
method, and that response carries no JSON body. -/
theorem unsupported_method_handled_after_auth {Body Conn Resp Store : Type}
    (postToRedis : Body → Int → Store → Except String Store)
    (connectToRedis : Except String Conn)
    (query : Conn → Int → Except String Resp)
    (r : Request Body) (store : Store)
    (hm : r.method ≠ "POST" ∧ r.method ≠ "GET") :
    ((∃ e, getUserInfo r.path r.hashes = .error e) →
       (statsHandler postToRedis connectToRedis query r store).status = 400) ∧
    (∀ u, getUserInfo r.path r.hashes = .ok u → r.oauthEmail = none →
       (statsHandler postToRedis connectToRedis query r store).status = 401) ∧
    (∀ u R, getUserInfo r.path r.hashes = .ok u → r.oauthEmail = some R →
       expectedHash R u.UserId ≠ u.Hash →
       (statsHandler postToRedis connectToRedis query r store).status = 403) ∧
    (∀ u, getUserInfo r.path r.hashes = .ok u →
       authenticateAgainst r.oauthEmail u = .ok () →
       statsHandler postToRedis connectToRedis query r store = ⟨405, false, store⟩) := by
  refine ⟨?_, ?_, ?_, ?_⟩
  · rintro ⟨e, he⟩
    simp [statsHandler, he]
  · intro u hu ho
    simp [statsHandler, hu, ho, authenticateAgainst]
  · intro u R hu ho hne
    simp [statsHandler, hu, ho, authenticateAgainst, hne]
  · intro u hu hauth
    simp [statsHandler, hu, hauth, hm.1, hm.2]

theorem unsupported_method_handled_after_auth_witness :
    statsHandler (fun (_ : Unit) _ (s : Nat) => .ok s) (.ok (0 : Nat))
        (fun _ _ => .ok (0 : Nat))
        ⟨"PUT", "/stats/5", [expectedHash "me" 5], some "me", some ()⟩ 3 =
      ⟨405, false, 3⟩ := by
  refine (unsupported_method_handled_after_auth _ _ _
      ⟨"PUT", "/stats/5", [expectedHash "me" 5], some "me", some ()⟩ 3
      ⟨by decide, by decide⟩).2.2.2 ⟨5, expectedHash "me" 5⟩ rfl ?_
  simp [authenticateAgainst]

end Statshub

namespace Statshub

/-- Claim C7: status codes of the stats endpoint: 400 for a malformed request
(bad or missing user id, missing or duplicated hash parameter, or an
undecodable POST body), 401 when the caller is unauthenticated, 403 on hash
mismatch, 500 when the backing store operation fails, 200 on success, and
405 exactly for a well-formed authenticated request whose method is neither
POST nor GET. -/
theorem statsHandler_status_codes {Body Conn Resp Store : Type}
    (postToRedis : Body → Int → Store → Except String Store)
    (connectToRedis : Except String Conn)
    (query : Conn → Int → Except String Resp)
    (r : Request Body) (store : Store) :
    ((statsHandler postToRedis connectToRedis query r store).status = 400 ↔
       ((∃ e, getUserInfo r.path r.hashes = .error e) ∨
        (∃ u, getUserInfo r.path r.hashes = .ok u ∧
           authenticateAgainst r.oauthEmail u = .ok () ∧
           r.method = "POST" ∧ r.body = none))) ∧
    ((statsHandler postToRedis connectToRedis query r store).status = 401 ↔
       (∃ u, getUserInfo r.path r.hashes = .ok u ∧ r.oauthEmail = none)) ∧
    ((statsHandler postToRedis connectToRedis query r store).status = 403 ↔
       (∃ u R, getUserInfo r.path r.hashes = .ok u ∧ r.oauthEmail = some R ∧
          expectedHash R u.UserId ≠ u.Hash)) ∧
    ((statsHandler postToRedis connectToRedis query r store).status = 500 ↔
       (∃ u, getUserInfo r.path r.hashes = .ok u ∧
          authenticateAgainst r.oauthEmail u = .ok () ∧
          ((r.method = "POST" ∧ ∃ b, r.body = some b ∧
              ∃ e, postToRedis b u.UserId store = .error e) ∨
           (r.method = "GET" ∧
              ((∃ e, connectToRedis = .error e) ∨
               (∃ conn, connectToRedis = .ok conn ∧
                  ∃ e, query conn u.UserId = .error e)))))) ∧
    ((statsHandler postToRedis connectToRedis query r store).status = 200 ↔
       (∃ u, getUserInfo r.path r.hashes = .ok u ∧
          authenticateAgainst r.oauthEmail u = .ok () ∧
          ((r.method = "POST" ∧ ∃ b, r.body = some b ∧
              ∃ s2, postToRedis b u.UserId store = .ok s2) ∨
           (r.method = "GET" ∧
              ∃ conn r2, connectToRedis = .ok conn ∧
                query conn u.UserId = .ok r2)))) ∧
    ((statsHandler postToRedis connectToRedis query r store).status = 405 ↔
       (∃ u, getUserInfo r.path r.hashes = .ok u ∧
          authenticateAgainst r.oauthEmail u = .ok () ∧
          r.method ≠ "POST" ∧ r.method ≠ "GET")) := by
  cases hgu : getUserInfo r.path r.hashes with
  | error e => simp [statsHandler, hgu]
  | ok u =>
    cases hauth : authenticateAgainst r.oauthEmail u with
    | error c =>
      rcases authenticateAgainst_error_cases _ _ _ hauth with
        ⟨hc, ho⟩ | ⟨hc, R, ho, hne⟩
      · subst hc
        rw [ho] at hauth
        simp [statsHandler, hgu, hauth, ho]
      · subst hc
        rw [ho] at hauth
        simp [statsHandler, hgu, hauth, ho, hne]
    | ok v =>
      cases v
      obtain ⟨R, hR, hmatch⟩ := (authenticateAgainst_ok_iff _ _).1 hauth
      rw [hR] at hauth
      by_cases hp : r.method = "POST"
      · cases hb : r.body with
        | none =>
          simp [statsHandler, postStats, hgu, hauth, hp, hb, hR, hmatch]
        | some b =>
          cases hpost : postToRedis b u.UserId store with
          | error e2 =>
            simp [statsHandler, postStats, hgu, hauth, hp, hb, hpost, hR, hmatch]
          | ok s2 =>
            simp [statsHandler, postStats, hgu, hauth, hp, hb, hpost, hR, hmatch]
      · by_cases hg : r.method = "GET"
        · cases hconn : connectToRedis with
          | error e2 =>
            simp [statsHandler, getStats, hgu, hauth, hp, hg, hconn, hR, hmatch]
          | ok conn =>
            cases hq : query conn u.UserId with
            | error e2 =>
              simp [statsHandler, getStats, hgu, hauth, hp, hg, hconn, hq, hR, hmatch]
            | ok r2 =>
              simp [statsHandler, getStats, hgu, hauth, hp, hg, hconn, hq, hR, hmatch]
        · simp [statsHandler, hgu, hauth, hp, hg, hR, hmatch]

end Statshub

namespace Statshub

theorem applyCounterSubs_value (subs : List (String × Int)) (store : String → Int)
    (name : String) :
    applyCounterSubs store subs name =
      store name + ((subs.filter (fun s => s.1 == name)).map Prod.snd).sum := by
  induction subs generalizing store with
  | nil => simp [applyCounterSubs]
  | cons s rest ih =>
    have hstep : applyCounterSubs store (s :: rest) =
        applyCounterSubs (applyCounterSub store s) rest := rfl
    by_cases h : s.1 = name
    · rw [hstep, ih]
      simp [applyCounterSub, List.filter_cons, h]
      ring
    · rw [hstep, ih]
      simp [applyCounterSub, List.filter_cons, h, Ne.symm h]

/-- Claim C2: for every sequence of counter submissions for one entity, the
stored value for a stat name is the sum of all submitted values for that
name (existing values default to 0), independent of the order of the
submissions and of how the sequence is split into batches. -/
theorem counter_merge_is_sum (subs subsP : List (String × Int)) (name : String)
    (hperm : subs.Perm subsP) :
    applyCounterSubs emptyCounters subs name =
      ((subs.filter (fun s => s.1 == name)).map Prod.snd).sum ∧
    applyCounterSubs emptyCounters subs name =
      applyCounterSubs emptyCounters subsP name ∧
    (∀ (l1 l2 : List (String × Int)) (st : String → Int),
       applyCounterSubs st (l1 ++ l2) = applyCounterSubs (applyCounterSubs st l1) l2) := by
  refine ⟨?_, ?_, ?_⟩
  · rw [applyCounterSubs_value]; simp [emptyCounters]
  · rw [applyCounterSubs_value, applyCounterSubs_value]
    simp [emptyCounters]
    exact ((hperm.filter _).map _).sum_eq
  · intro l1 l2 st
    exact List.foldl_append ..

theorem counter_merge_is_sum_witness :
    applyCounterSubs emptyCounters [("a", 1), ("b", 2), ("a", 3)] "a" = 4 ∧
    applyCounterSubs emptyCounters [("a", 1), ("b", 2), ("a", 3)] "a" =
      applyCounterSubs emptyCounters [("a", 3), ("a", 1), ("b", 2)] "a" := by
  have h := counter_merge_is_sum [("a", 1), ("b", 2), ("a", 3)]
    [("a", 3), ("a", 1), ("b", 2)] "a" (by decide)
  exact ⟨h.1.trans (by decide), h.2.1⟩

end Statshub

namespace Archive

/-- Claim C5: the scheduler's wait is computed from nextBoundary(t, i) =
truncate(t, i) + i; for positive i this boundary is strictly after t, is an
exact multiple of i from the epoch, recomputing it at the same instant gives
the same value, and the loop's next cycle fires exactly at it. -/
theorem nextBoundary_strictly_future_and_aligned (t i : Nat) (hi : 0 < i) :
    t < nextBoundary t i ∧
    i ∣ nextBoundary t i ∧
    (∀ s : Nat, s = t → nextBoundary s i = nextBoundary t i) ∧
    (∀ (o : Option String) (rest : List (Option String)),
       (archiveLoopRun i (o :: rest) t).head? = some (nextBoundary t i, o.isSome)) := by
  have hiz : ¬i = 0 := Nat.pos_iff_ne_zero.mp hi
  have h1 : t % i < i := Nat.mod_lt t hi
  have h2 : t % i ≤ t := Nat.mod_le t i
  have h3 : i * (t / i) + t % i = t := Nat.div_add_mod t i
  refine ⟨?_, ⟨t / i + 1, ?_⟩, ?_, ?_⟩
  · simp only [nextBoundary, truncTime, hiz, if_false]
    omega
  · simp only [nextBoundary, truncTime, hiz, if_false, Nat.mul_add, Nat.mul_one]
    omega
  · intro s hs; rw [hs]
  · intro o rest; rfl

theorem nextBoundary_strictly_future_and_aligned_witness :
    125 < nextBoundary 125 10 ∧ 10 ∣ nextBoundary 125 10 := by
  have h := nextBoundary_strictly_future_and_aligned 125 10 (by decide)
  exact ⟨h.1, h.2.1⟩

/-- Claim C6: the per-dimension archival loop never terminates on an error:
it performs exactly one cycle per scheduled boundary whatever the cycle
outcomes are, an error is logged for precisely the failed cycles, and after
any outcome the loop continues at the next aligned boundary. -/
theorem archive_loop_survives_cycle_failures (i t : Nat)
    (outcomes : List (Option String)) :
    (archiveLoopRun i outcomes t).length = outcomes.length ∧
    (archiveLoopRun i outcomes t).map Prod.snd = outcomes.map Option.isSome ∧
    (∀ (o : Option String) (rest : List (Option String)) (s : Nat),
       archiveLoopRun i (o :: rest) s =
         (nextBoundary s i, o.isSome) :: archiveLoopRun i rest (nextBoundary s i)) := by
  refine ⟨?_, ?_, fun o rest s => rfl⟩ <;>
    induction outcomes generalizing t <;> simp [archiveLoopRun, *]

/-- Claim C8: Start schedules no archival task when the warehouse project id
is empty, and otherwise schedules exactly the three per-dimension tasks:
fallback every 10 minutes, country every hour, user every 24 hours. -/
theorem start_schedules_three_dimension_tasks :
    Start "" = [] ∧
    ∀ p : String, p ≠ "" →
      Start p = [("fallback", 10 * minuteNs), ("country", 1 * hourNs),
                 ("user", 24 * hourNs)] := by
  refine ⟨rfl, fun p hp => ?_⟩
  simp [Start, hp]

theorem start_schedules_three_dimension_tasks_witness :
    Start "statshub-project" = [("fallback", 10 * minuteNs), ("country", 1 * hourNs),
      ("user", 24 * hourNs)] :=
  start_schedules_three_dimension_tasks.2 "statshub-project" (by decide)

/-- Claim C4: a cycle whose dimension query returns several entities behaves
exactly as if the query had returned only the first entity: the cycle result
is the first entity's write result, at most one write is performed and it
names the first entity only. -/
theorem archive_cycle_processes_only_first_entity {S T : Type}
    (e : String × S) (rest : List (String × S))
    (newStatsTable : String → Except String T)
    (writeStats : T → S → Nat → Except String Unit) (now interval : Nat) :
    archiveToBigQuery (.ok (e :: rest)) newStatsTable writeStats now interval =
      archiveToBigQuery (.ok [e]) newStatsTable writeStats now interval ∧
    (archiveToBigQuery (.ok (e :: rest)) newStatsTable writeStats now
        interval).2.length ≤ 1 ∧
    (∀ p ∈ (archiveToBigQuery (.ok (e :: rest)) newStatsTable writeStats now
        interval).2, p.1 = e.1) := by
  obtain ⟨dimName, dimStats⟩ := e
  refine ⟨rfl, ?_, ?_⟩ <;>
    cases ht : newStatsTable dimName <;>
      simp [archiveToBigQuery, ht]

/-- Claim C3 as stated is false on the code: at instant 125 with interval 10
the snapshot is written with timestamp truncate(125, 10) = 120, not the next
aligned boundary truncate(125, 10) + 10 = 130. -/
theorem archive_timestamp_differs_from_next_boundary :
    (archiveToBigQuery (S := Unit) (T := Unit) (.ok [("user", ())])
        (fun _ => .ok ()) (fun _ _ _ => .ok ()) 125 10).2 = [("user", 120)] ∧
    nextBoundary 125 10 = 130 ∧
    ¬(archiveToBigQuery (S := Unit) (T := Unit) (.ok [("user", ())])
        (fun _ => .ok ()) (fun _ _ _ => .ok ()) 125 10).2 =
      [("user", nextBoundary 125 10)] := by
  refine ⟨rfl, rfl, ?_⟩
  decide

/-- Claim C3 amended: the timestamp persisted with each snapshot by
archiveToBigQuery is truncate(now, interval), the aligned boundary of the
window the write occurs in, not truncate(now, interval) + interval. -/
theorem archive_timestamp_is_current_truncation {S T : Type}
    (dimName : String) (dimStats : S) (rest : List (String × S))
    (newStatsTable : String → Except String T) (tbl : T)
    (writeStats : T → S → Nat → Except String Unit) (now interval : Nat)
    (ht : newStatsTable dimName = .ok tbl) :
    (archiveToBigQuery (.ok ((dimName, dimStats) :: rest)) newStatsTable
        writeStats now interval).2 = [(dimName, truncTime now interval)] := by
  simp [archiveToBigQuery, ht]

theorem archive_timestamp_is_current_truncation_witness :
    (archiveToBigQuery (S := Unit) (T := Unit) (.ok [("country", ())])
        (fun _ => .ok ()) (fun _ _ _ => .ok ()) 125 10).2 = [("country", 120)] := by
  have h := archive_timestamp_is_current_truncation "country" () []
    (fun _ => .ok ()) () (fun _ _ _ => .ok ()) 125 10 rfl
  exact h.trans (by decide)

end Archive
